import Mathlib

/-!
# Verification of the reconciliation and returns pipeline of `src/stocks.py`

Shallow embedding of the pandas script `src/stocks.py`.  Conventions:

* Trading dates are embedded as `Nat`.  The script stores dates as ISO
  `"%Y-%m-%d"` strings, whose lexicographic order coincides with
  chronological order; `sorted(price_df.columns)` is therefore a
  chronological sort, which `Nat` ordering models faithfully.
* CSV cells parsed as floats are embedded as exact rationals `ℚ`; the
  IEEE special values that the script's arithmetic can produce
  (`NaN` from missing cells and `0/0`, `±inf` from division by zero)
  are made explicit in the value type `PVal`.  A missing cell of the
  pivoted price table (pandas `NaN`) is `Option.none`.
* A pandas DataFrame is a list of typed rows; `pd.concat` is list
  append, `merge(..., how="left")` is the usual left join with row
  multiplication on duplicate keys, `drop_duplicates` keeps the first
  occurrence of each exact-duplicate row, and `DataFrame.pivot` is
  defined only when no two rows share the (index, column) key pair —
  pandas raises `ValueError: Index contains duplicate entries` otherwise,
  which the model turns into an error result of the pipeline.
-/

/-- Result value of a float computation of the script: an exact rational,
or one of the IEEE special values the script's arithmetic can produce. -/
inductive PVal where
  | num (q : ℚ)
  | nan
  | inf
  | neginf
deriving DecidableEq

/-- Source exchange of a record: `A` = NSE, `B` = BSE.  In the script this
is implicit in which DataFrame a row came from; the tag is carried here to
state provenance properties and plays no role in any computation. -/
inductive Exch where
  | A
  | B
deriving DecidableEq

/-- One row of an NSE bhavcopy after `pd.read_csv`, restricted to the
columns the script touches: `SERIES`, `SYMBOL`, `ISIN`, `CLOSE`,
`TOTTRDQTY` (lines 12-21 and 65-67 of `src/stocks.py`).  `isin` is an
`Option` because a CSV cell can be missing (the script calls
`dropna()` on the ISIN column at line 91). -/
structure NseRaw where
  series : String
  symbol : String
  isin : Option String
  close : ℚ
  volume : ℚ
deriving DecidableEq

/-- One row of a BSE bhavcopy restricted to the columns selected at
line 71 of `src/stocks.py`: `SC_CODE`, `SC_NAME`, `CLOSE`, `NO_OF_SHRS`. -/
structure BseRaw where
  scCode : Int
  scName : String
  close : ℚ
  volume : ℚ
deriving DecidableEq

/-- One row of `BSE_ISIN_MAPPING.csv` (loaded at lines 36-40):
an `SC_CODE` key and the mapped `ISIN`, which may be blank (`none`). -/
structure MapRow where
  scCode : Int
  isin : Option String
deriving DecidableEq

/-- One row of the `combined` DataFrame built at lines 98-102 of
`src/stocks.py`: columns `DATE`, `ISIN`, `NAME`, `CLOSE`, `VOLUME`,
plus the provenance tag `exch` (not a DataFrame column). -/
structure Rec where
  date : Nat
  isin : Option String
  name : String
  close : ℚ
  volume : ℚ
  exch : Exch
deriving DecidableEq

/-- The data available for one calendar date of the loop at lines 60-76:
`none` models a failed download (`download_*_bhavcopy` returned `None`),
`some rows` a parsed bhavcopy. -/
structure Batch where
  date : Nat
  nse : Option (List NseRaw)
  bse : Option (List BseRaw)

/-- Helper for `dropDup`: `seen` holds the values already emitted. -/
def dropDupAcc {α : Type} [DecidableEq α] : List α → List α → List α
  | _, [] => []
  | seen, a :: l =>
      if a ∈ seen then dropDupAcc seen l
      else a :: dropDupAcc (a :: seen) l

/-- `DataFrame.drop_duplicates()`: keep the first occurrence of every
exact-duplicate row. -/
def dropDup {α : Type} [DecidableEq α] (l : List α) : List α :=
  dropDupAcc [] l

/-- Normalization of one NSE batch: the `SERIES == "EQ"` filter of
line 20, the column selection and `drop_duplicates` of line 65, the
`DATE` column of line 66 and the renames of lines 67 and 95. -/
def nse_batch (d : Nat) (rows : List NseRaw) : List Rec :=
  (dropDup ((rows.filter (fun r => r.series == "EQ")).map
      (fun r => (r.symbol, r.isin, r.close, r.volume)))).map
    (fun t => ⟨d, t.2.1, t.1, t.2.2.1, t.2.2.2, Exch.A⟩)

/-- Normalization of one BSE batch: the column selection and
`drop_duplicates` of line 71, the left merge with the mapping table on
`SC_CODE` of line 72 (left rows with several matching mapping rows are
duplicated, unmatched left rows get a missing `ISIN`), the rename and
selection of lines 73-74 and the `DATE` column of line 75. -/
def bse_batch (d : Nat) (mapT : List MapRow) (rows : List BseRaw) : List Rec :=
  (dropDup (rows.map (fun r => (r.scCode, r.scName, r.close, r.volume)))).flatMap
    (fun t =>
      if (mapT.filter (fun mr => mr.scCode == t.1)).isEmpty then
        [⟨d, none, t.2.1, t.2.2.1, t.2.2.2, Exch.B⟩]
      else
        (mapT.filter (fun mr => mr.scCode == t.1)).map
          (fun mr => ⟨d, mr.isin, t.2.1, t.2.2.1, t.2.2.2, Exch.B⟩))

/-- `nse_all` (lines 80-83): concatenation of all successfully
downloaded NSE batches. -/
def nse_all (bs : List Batch) : List Rec :=
  bs.flatMap (fun b => match b.nse with
    | some rows => nse_batch b.date rows
    | none => [])

/-- `bse_all` (lines 85-88): concatenation of all successfully
downloaded BSE batches. -/
def bse_all (mapT : List MapRow) (bs : List Batch) : List Rec :=
  bs.flatMap (fun b => match b.bse with
    | some rows => bse_batch b.date mapT rows
    | none => [])

/-- `nse_isins` (line 91): the ISINs NSE reports on any date of the
window, missing values dropped.  Membership in this list models
membership in the Python set. -/
def nse_isins (bs : List Batch) : List String :=
  (nse_all bs).filterMap (·.isin)

/-- The row predicate of line 92, `~bse_all["ISIN"].isin(nse_isins)`:
a BSE row is kept when its ISIN is not reported by NSE on any date.
A missing ISIN (pandas `NaN`) is never a member of the set, so unmapped
rows always pass. -/
def keepBse (bs : List Batch) (r : Rec) : Bool :=
  match r.isin with
  | some i => decide (i ∉ nse_isins bs)
  | none => true

/-- `bse_filtered` (line 92): the BSE rows passing `keepBse`. -/
def bse_filtered (mapT : List MapRow) (bs : List Batch) : List Rec :=
  (bse_all mapT bs).filter (keepBse bs)

/-- `combined` (lines 98-102): NSE rows followed by the filtered BSE rows. -/
def combined (mapT : List MapRow) (bs : List Batch) : List Rec :=
  nse_all bs ++ bse_filtered mapT bs

/-- The pivot key of a row: the `(NAME, DATE)` pair (lines 105-106). -/
def keyOf (r : Rec) : String × Nat := (r.name, r.date)

/-- `DataFrame.pivot` at lines 105-106 succeeds exactly when no two rows
share the `(NAME, DATE)` key; otherwise pandas raises. -/
def pivotOk (rs : List Rec) : Prop :=
  (rs.map keyOf).Nodup

instance (rs : List Rec) : Decidable (pivotOk rs) := by
  unfold pivotOk; infer_instance

/-- A cell of the pivoted price table `price_df`: the close price of the
row with the given name and date, `none` when the instrument has no
record on that date (a pandas `NaN`). -/
def cell (rs : List Rec) (n : String) (d : Nat) : Option ℚ :=
  (rs.find? (fun r => r.name == n && r.date == d)).map (·.close)

/-- The row index of the pivoted tables: the distinct `NAME` values. -/
def out_names (rs : List Rec) : List String :=
  dropDup (rs.map (·.name))

/-- The distinct dates occurring in `combined`, sorted ascending: the
columns of `price_df` after `sorted(price_df.columns)` (line 109). -/
def all_dates (rs : List Rec) : List Nat :=
  (dropDup (rs.map (·.date))).insertionSort (· ≤ ·)

/-- Python's `lst[-n:]` for `n ≥ 1`: the last `n` elements. -/
def lastN (n : Nat) (l : List α) : List α :=
  l.drop (l.length - n)

/-- `last_days` (line 109): the last `days` columns of the pivot. -/
def last_days (rs : List Rec) (days : Nat) : List Nat :=
  lastN days (all_dates rs)

/-- The percent change `(cur - prev) / prev * 100` on float cells, with
numpy division semantics: any operand that is `NaN` (a missing cell)
propagates to `NaN`; division by a zero `prev` yields `±inf` for a
nonzero numerator and `NaN` for `0/0`.  Used both by `pct_change`
(line 114) and by the total-change formula (line 117). -/
def pctCell : Option ℚ → Option ℚ → PVal
  | some p, some c =>
      if p = 0 then
        if c = 0 then PVal.nan
        else if 0 < c then PVal.inf
        else PVal.neginf
      else PVal.num ((c - p) / p * 100)
  | _, _ => PVal.nan

/-- One step of pandas' `fill_method="pad"` forward fill: a present cell
stays, a missing cell takes the (already filled) previous value. -/
def ffill1 (prev x : Option ℚ) : Option ℚ :=
  match x with
  | some v => some v
  | none => prev

/-- `Series.pct_change` along one row of the pivot, with pandas'
default `fill_method="pad"`: missing cells are forward-filled before
differencing, and the first position (nothing to compare against, the
accumulator starts as `none`) is `NaN`.  The accumulator is the
forward-filled previous value. -/
def pctPairs : Option ℚ → List (Option ℚ) → List PVal
  | _, [] => []
  | prev, x :: xs =>
      pctCell prev (ffill1 prev x) :: pctPairs (ffill1 prev x) xs

/-- The row of `price_df` for instrument `n`: its close price at each
column of `last_days` (lines 105 and 110). -/
def price_row (rs : List Rec) (days : Nat) (n : String) : List (Option ℚ) :=
  (last_days rs days).map (cell rs n)

/-- The row of `daily_change` for instrument `n` (line 114):
`price_df.pct_change(axis=1) * 100` along that row. -/
def pct_row (rs : List Rec) (days : Nat) (n : String) : List PVal :=
  pctPairs none (price_row rs days n)

/-- The day-over-day percent change of instrument `n` at the `j`-th
column of the window (line 114); `NaN` when `j` is out of range. -/
def daily_change (rs : List Rec) (days : Nat) (n : String) (j : Nat) : PVal :=
  ((pct_row rs days n).get? j).getD PVal.nan

/-- `daily_change["Total Change %"]` (line 117): the percent change of
each instrument between the first and the last column of the window,
`(price_df[last_days[-1]] - price_df[last_days[0]]) / price_df[last_days[0]] * 100`. -/
def total_change (rs : List Rec) (days : Nat) (n : String) : PVal :=
  match (last_days rs days).head?, (last_days rs days).getLast? with
  | some d0, some d1 => pctCell (cell rs n d0) (cell rs n d1)
  | _, _ => PVal.nan

/-- The window dates on which instrument `n` actually has an
observation, in ascending order. -/
def present_dates (rs : List Rec) (days : Nat) (n : String) : List Nat :=
  (last_days rs days).filter (fun d => (cell rs n d).isSome)

/-- The spec's description of total change, stated for comparison with
`total_change`: the percent change between the first and last *present*
dates of the instrument's possibly sparse series in the window, `NaN`
when the series is empty. -/
def total_change_spec (rs : List Rec) (days : Nat) (n : String) : PVal :=
  match (present_dates rs days n).head?, (present_dates rs days n).getLast? with
  | some d0, some d1 => pctCell (cell rs n d0) (cell rs n d1)
  | _, _ => PVal.nan

/-- Outcome of one run of the script on given inputs. -/
inductive PipeOut where
  | configError
  | noData
  | pivotError
  | indexError
  | ok (comb : List Rec) (ld : List Nat)
deriving DecidableEq

/-- `nse_data or bse_data` (line 78): `True` exactly when at least one
download of the loop succeeded — an appended empty DataFrame still makes
the list truthy. -/
def hasAnyDownload (bs : List Batch) : Bool :=
  bs.any (fun b => b.nse.isSome || b.bse.isSome)

/-- The whole script run, from `load_bse_mapping` to the final table.

* `mapT = none`: `load_bse_mapping` raised, the `except` branch at
  lines 51-53 shows an error and calls `st.stop()` before any download
  or computation — `configError`.
* No download succeeded: the `else` branch at line 151 — `noData`.
* Two combined rows share a `(NAME, DATE)` key: `DataFrame.pivot` at
  line 105 raises and nothing catches it — `pivotError`.
* The pivot has no column at all (no record survived normalization):
  `last_days[-1]` at line 117 raises `IndexError` — `indexError`.
* Otherwise the run succeeds with the combined records and the window
  columns, from which the output table is derived. -/
def pipeline (mapT : Option (List MapRow)) (bs : List Batch) (days : Nat) : PipeOut :=
  match mapT with
  | none => PipeOut.configError
  | some m =>
      if hasAnyDownload bs then
        if pivotOk (combined m bs) then
          if (last_days (combined m bs) days).isEmpty then PipeOut.indexError
          else PipeOut.ok (combined m bs) (last_days (combined m bs) days)
        else PipeOut.pivotError
      else PipeOut.noData

/-! ## Concrete inputs used by the witnesses and counterexamples -/

/-- C1 input: NSE reports ISIN `"I"` on date 1 only; BSE reports the same
ISIN (scrip code 5) on dates 1 and 2. -/
def mapC1 : List MapRow := [⟨5, some "I"⟩]

/-- C1 input batches. -/
def bsC1 : List Batch :=
  [⟨1, some [⟨"EQ", "X", some "I", 100, 1⟩], some [⟨5, "XB", 99, 1⟩]⟩,
   ⟨2, some [], some [⟨5, "XB", 104, 1⟩]⟩]

/-- C2/C4 style input: instrument `X` on dates 1-3, instrument `Y` on
dates 2 and 3 only (sparse at the window start). -/
def bsC2 : List Batch :=
  [⟨1, some [⟨"EQ", "X", some "IX", 50, 1⟩], none⟩,
   ⟨2, some [⟨"EQ", "X", some "IX", 60, 1⟩, ⟨"EQ", "Y", some "IY", 100, 1⟩], none⟩,
   ⟨3, some [⟨"EQ", "X", some "IX", 55, 1⟩, ⟨"EQ", "Y", some "IY", 104, 1⟩], none⟩]

/-- C3 input: instrument `X` on dates 1 and 2, instrument `W` on date 2
only, so `W`'s series starts at the second window column. -/
def bsC3 : List Batch :=
  [⟨1, some [⟨"EQ", "X", some "IX", 50, 1⟩], none⟩,
   ⟨2, some [⟨"EQ", "X", some "IX", 60, 1⟩, ⟨"EQ", "W", some "IW", 100, 1⟩], none⟩]

/-- C4 input: instrument `X` on dates 1 and 2, instrument `Y` with a
single observation on date 2. -/
def bsC4 : List Batch :=
  [⟨1, some [⟨"EQ", "X", some "IX", 50, 1⟩], none⟩,
   ⟨2, some [⟨"EQ", "X", some "IX", 60, 1⟩, ⟨"EQ", "Y", some "IY", 70, 1⟩], none⟩]

/-- C5 input: instrument `Z` closes at 0 on date 1 and at 5 on date 2. -/
def bsC5 : List Batch :=
  [⟨1, some [⟨"EQ", "Z", some "IZ", 0, 1⟩], none⟩,
   ⟨2, some [⟨"EQ", "Z", some "IZ", 5, 1⟩], none⟩]

/-- C7 input: an NSE record named `"AB"` on date 1, and a BSE record with
unmapped scrip code 7 whose native name is also `"AB"`, on date 2. -/
def bsC7 : List Batch :=
  [⟨1, some [⟨"EQ", "AB", some "I2", 10, 1⟩], none⟩,
   ⟨2, none, some [⟨7, "AB", 11, 1⟩]⟩]

/-- C8 input: a two-date NSE-only window. -/
def bsC8 : List Batch :=
  [⟨1, some [⟨"EQ", "S", some "IS", 20, 1⟩], none⟩,
   ⟨2, some [⟨"EQ", "S", some "IS", 22, 1⟩], none⟩]

/-- C9 input: a mapping table with an exact-duplicate row for scrip
code 5. -/
def mapC9dup : List MapRow := [⟨5, some "I"⟩, ⟨5, some "I"⟩]

/-- C9 input: the same mapping table with the duplicate removed. -/
def mapC9once : List MapRow := [⟨5, some "I"⟩]

/-- C9 input: a single BSE batch containing one row for scrip code 5. -/
def bsC9 : List Batch := [⟨1, none, some [⟨5, "B1", 10, 1⟩]⟩]

/-- C10 input: two NSE rows with the same symbol and date but different
ISINs and prices — two distinct records sharing the `(NAME, DATE)` key. -/
def bsC10 : List Batch :=
  [⟨1, some [⟨"EQ", "D", some "I1", 10, 1⟩, ⟨"EQ", "D", some "I2", 11, 1⟩], none⟩]

/-! ## Helper lemmas -/

theorem mem_dropDupAcc {α : Type} [DecidableEq α] {a : α} :
    ∀ (seen l : List α), (a ∈ dropDupAcc seen l ↔ a ∈ l ∧ a ∉ seen)
  | seen, [] => by simp [dropDupAcc]
  | seen, b :: l => by
      by_cases hb : b ∈ seen
      · rw [dropDupAcc, if_pos hb, mem_dropDupAcc seen l, List.mem_cons]
        constructor
        · rintro ⟨h1, h2⟩
          exact ⟨Or.inr h1, h2⟩
        · rintro ⟨h1 | h1, h2⟩
          · exact absurd (h1 ▸ hb) h2
          · exact ⟨h1, h2⟩
      · rw [dropDupAcc, if_neg hb, List.mem_cons, List.mem_cons,
          mem_dropDupAcc (b :: seen) l]
        constructor
        · rintro (rfl | ⟨h1, h2⟩)
          · exact ⟨Or.inl rfl, hb⟩
          · exact ⟨Or.inr h1, fun hs => h2 (List.mem_cons_of_mem _ hs)⟩
        · rintro ⟨h1 | h1, h2⟩
          · exact Or.inl h1
          · by_cases hab : a = b
            · exact Or.inl hab
            · refine Or.inr ⟨h1, fun hs => ?_⟩
              rcases List.mem_cons.1 hs with h | h
              · exact hab h
              · exact h2 h

theorem nodup_dropDupAcc {α : Type} [DecidableEq α] :
    ∀ (seen l : List α), (dropDupAcc seen l).Nodup
  | seen, [] => List.nodup_nil
  | seen, b :: l => by
      by_cases hb : b ∈ seen
      · rw [dropDupAcc, if_pos hb]
        exact nodup_dropDupAcc seen l
      · rw [dropDupAcc, if_neg hb]
        refine List.nodup_cons.2 ⟨fun hmem => ?_, nodup_dropDupAcc (b :: seen) l⟩
        exact ((mem_dropDupAcc _ _).1 hmem).2 (List.mem_cons_self b seen)

theorem mem_dropDup {α : Type} [DecidableEq α] {a : α} {l : List α} :
    a ∈ dropDup l ↔ a ∈ l := by
  rw [dropDup, mem_dropDupAcc]
  simp

theorem nodup_dropDup {α : Type} [DecidableEq α] (l : List α) :
    (dropDup l).Nodup :=
  nodup_dropDupAcc [] l

theorem sorted_lt_all_dates (rs : List Rec) :
    List.Sorted (· < ·) (all_dates rs) := by
  have hs : List.Sorted (· ≤ ·) (all_dates rs) :=
    List.sorted_insertionSort _ _
  have hn : (all_dates rs).Nodup :=
    ((List.perm_insertionSort _ _).nodup_iff).2 (nodup_dropDup _)
  exact hs.lt_of_le hn

theorem sorted_lt_last_days (rs : List Rec) (days : Nat) :
    List.Sorted (· < ·) (last_days rs days) :=
  List.Pairwise.sublist (List.drop_sublist _ _) (sorted_lt_all_dates rs)

theorem two_le_length_of_mem {α : Type} {a b : α} :
    ∀ {l : List α}, a ∈ l → b ∈ l → a ≠ b → 2 ≤ l.length
  | [], ha, _, _ => absurd ha (List.not_mem_nil a)
  | [x], ha, hb, hne => by
      rcases List.mem_singleton.1 ha with rfl
      rcases List.mem_singleton.1 hb with rfl
      exact absurd rfl hne
  | _ :: _ :: _, _, _, _ => by
      simp only [List.length_cons]
      omega

theorem head_lt_getLast {l : List Nat} (hs : List.Sorted (· < ·) l)
    {d0 d1 : Nat} (h0 : l.head? = some d0) (h1 : l.getLast? = some d1)
    (h2 : 2 ≤ l.length) : d0 < d1 := by
  match l, hs, h0, h1, h2 with
  | [], _, _, _, h2 => simp at h2
  | [a], _, _, _, h2 => simp at h2
  | a :: b :: t, hs, h0, h1, _ =>
    have hd0 : a = d0 := by simpa using h0
    rw [List.getLast?_cons_cons] at h1
    have hmem : d1 ∈ b :: t := List.mem_of_getLast?_eq_some h1
    exact hd0 ▸ (List.sorted_cons.1 hs).1 d1 hmem

theorem pctCell_none_left (x : Option ℚ) : pctCell none x = PVal.nan := by
  cases x <;> rfl

theorem pctCell_none_right (x : Option ℚ) : pctCell x none = PVal.nan := by
  cases x <;> rfl

theorem ffill1_none (x : Option ℚ) : ffill1 none x = x := by
  cases x <;> rfl

theorem pctPairs_get?_succ :
    ∀ (prev : Option ℚ) (l : List (Option ℚ)) (j : Nat) (p c : ℚ),
      l.get? j = some (some p) → l.get? (j + 1) = some (some c) →
      (pctPairs prev l).get? (j + 1) = some (pctCell (some p) (some c))
  | _, [], _, _, _, h, _ => by simp at h
  | prev, x :: xs, 0, p, c, h, h2 => by
      have hx : x = some p := by simpa using h
      subst hx
      match xs, h2 with
      | y :: ys, h2 =>
        have hy : y = some c := by simpa using h2
        subst hy
        rfl
  | prev, x :: xs, j + 1, p, c, h, h2 => by
      rw [List.get?_cons_succ] at h h2
      show (pctPairs (ffill1 prev x) xs).get? (j + 1) = _
      exact pctPairs_get?_succ _ xs j p c h h2

theorem pctPairs_get?_none_prefix :
    ∀ (l : List (Option ℚ)) (j : Nat) (x : Option ℚ),
      (∀ k, k < j → l.get? k = some none) → l.get? j = some x →
      (pctPairs none l).get? j = some (pctCell none x)
  | [], j, _, _, hj => by simp at hj
  | y :: ys, 0, x, _, hj => by
      have hy : y = x := by simpa using hj
      subst hy
      show some (pctCell none (ffill1 none y)) = some (pctCell none y)
      rw [ffill1_none]
  | y :: ys, j + 1, x, hb, hj => by
      have hy : y = none := by
        have h := hb 0 (Nat.succ_pos j)
        simpa using h
      subst hy
      rw [List.get?_cons_succ] at hj
      show (pctPairs (ffill1 none none) ys).get? j = _
      exact pctPairs_get?_none_prefix ys j x
        (fun k hk => by
          have h := hb (k + 1) (Nat.succ_lt_succ hk)
          rw [List.get?_cons_succ] at h
          exact h) hj

theorem exch_of_mem_nse_batch {d : Nat} {rows : List NseRaw} {r : Rec}
    (h : r ∈ nse_batch d rows) : r.exch = Exch.A := by
  simp only [nse_batch, List.mem_map] at h
  obtain ⟨t, _, rfl⟩ := h
  rfl

theorem exch_of_mem_nse_all {bs : List Batch} {r : Rec}
    (h : r ∈ nse_all bs) : r.exch = Exch.A := by
  simp only [nse_all, List.mem_flatMap] at h
  obtain ⟨b, _, hb⟩ := h
  rcases b with ⟨d, nseRows, bseRows⟩
  cases nseRows with
  | none => simp at hb
  | some rows => exact exch_of_mem_nse_batch hb

theorem exch_of_mem_bse_batch {d : Nat} {m : List MapRow} {rows : List BseRaw}
    {r : Rec} (h : r ∈ bse_batch d m rows) : r.exch = Exch.B := by
  simp only [bse_batch, List.mem_flatMap] at h
  obtain ⟨t, _, ht⟩ := h
  by_cases he : (m.filter (fun mr => mr.scCode == t.1)).isEmpty
  · rw [if_pos he] at ht
    rcases List.mem_singleton.1 ht with rfl
    rfl
  · rw [if_neg he] at ht
    rcases List.mem_map.1 ht with ⟨mr, _, rfl⟩
    rfl

theorem exch_of_mem_bse_all {m : List MapRow} {bs : List Batch} {r : Rec}
    (h : r ∈ bse_all m bs) : r.exch = Exch.B := by
  simp only [bse_all, List.mem_flatMap] at h
  obtain ⟨b, _, hb⟩ := h
  rcases b with ⟨d, nseRows, bseRows⟩
  cases bseRows with
  | none => simp at hb
  | some rows => exact exch_of_mem_bse_batch hb

theorem keepBse_iff (bs : List Batch) (r : Rec) :
    keepBse bs r = true ↔ ∀ i, r.isin = some i → i ∉ nse_isins bs := by
  cases hi : r.isin with
  | none => simp [keepBse, hi]
  | some i => simp [keepBse, hi]

/-! ## C1 -/

/-- C1 (amended): every exchange-A (NSE) record is in the reconciled
record set, and an exchange-B (BSE) record is in it if and only if its
canonical id — when it has one — is reported by exchange A on *no* date
of the whole window.  The preference is therefore global over the
window, not per date: lines 91-92 of `src/stocks.py` drop every BSE row
whose ISIN NSE reports anywhere in the window, including dates on which
NSE does not report that ISIN. -/
theorem C1_amended_nse_preferred_globally (m : List MapRow) (bs : List Batch) :
    (∀ r ∈ nse_all bs, r ∈ combined m bs) ∧
    (∀ r ∈ bse_all m bs,
      (r ∈ combined m bs ↔ ∀ i, r.isin = some i → i ∉ nse_isins bs)) := by
  constructor
  · intro r hr
    exact List.mem_append_left _ hr
  · intro r hr
    constructor
    · intro hc
      rcases List.mem_append.1 hc with hA | hB
      · have hea : r.exch = Exch.A := exch_of_mem_nse_all hA
        have heb : r.exch = Exch.B := exch_of_mem_bse_all hr
        rw [hea] at heb
        exact absurd heb (by decide)
      · exact (keepBse_iff bs r).1 (List.mem_filter.1 hB).2
    · intro h
      exact List.mem_append_right _
        (List.mem_filter.2 ⟨hr, (keepBse_iff bs r).2 h⟩)

/-- C1 witness: on `bsC1`, the NSE record of ISIN `"I"` at date 1 is in
the reconciled set, and the BSE record of the same ISIN at date 2 is
not, because NSE reports `"I"` at date 1. -/
theorem C1_witness :
    (⟨1, some "I", "X", 100, 1, Exch.A⟩ : Rec) ∈ combined mapC1 bsC1 ∧
    (⟨2, some "I", "XB", 104, 1, Exch.B⟩ : Rec) ∉ combined mapC1 bsC1 := by
  constructor
  · exact (C1_amended_nse_preferred_globally mapC1 bsC1).1 _ (by decide)
  · intro hmem
    have h :=
      ((C1_amended_nse_preferred_globally mapC1 bsC1).2 _ (by decide)).1 hmem "I" rfl
    exact h (by decide)

/-- C1 counterexample: exchange B reports ISIN `"I"` on date 2 and
exchange A does not report it on date 2 (A reports it on date 1 only),
yet the reconciled record set contains no record of `"I"` on date 2 —
refuting the per-date tie-break reading of the claim. -/
theorem C1_counterexample :
    ((bse_all mapC1 bsC1).any (fun r => r.isin == some "I" && r.date == 2)) = true ∧
    ((nse_all bsC1).any (fun r => r.isin == some "I" && r.date == 2)) = false ∧
    ((combined mapC1 bsC1).any (fun r => r.isin == some "I" && r.date == 2)) = false :=
  ⟨by decide, by decide, by decide⟩

/-! ## C2 -/

/-- C2 (amended): `Total Change %` (line 117) is the percent change
between the *calendar* first and last dates of the window.  When the
instrument has observations on both window-boundary dates, the total
change equals exactly that two-cell formula, so intermediate missing
dates do not affect it. -/
theorem C2_amended_window_boundary_total_change
    (rs : List Rec) (days : Nat) (n : String) (d0 d1 : Nat) (p0 p1 : ℚ)
    (h0 : (last_days rs days).head? = some d0)
    (h1 : (last_days rs days).getLast? = some d1)
    (hc0 : cell rs n d0 = some p0) (hc1 : cell rs n d1 = some p1)
    (hp0 : p0 ≠ 0) :
    total_change rs days n = PVal.num ((p1 - p0) / p0 * 100) := by
  simp only [total_change, h0, h1, hc0, hc1, pctCell]
  rw [if_neg hp0]

/-- C2 witness: instrument `X` of `bsC2` is present on the boundary
dates 1 and 3 of the window, with closes 50 and 55. -/
theorem C2_witness :
    total_change (combined [] bsC2) 3 "X" = PVal.num ((55 - 50) / 50 * 100) :=
  C2_amended_window_boundary_total_change (combined [] bsC2) 3 "X" 1 3 50 55
    (by decide) (by decide) (by decide) (by decide) (by decide)

/-- C2 counterexample: instrument `Y` of `bsC2` is observed on dates 2
and 3 of the window `[1, 2, 3]` with closes 100 and 104.  The change
between its first and last *present* dates is 4 percent, but the code's
total change is `NaN` because `Y` is missing on the calendar first date
of the window. -/
theorem C2_counterexample :
    total_change (combined [] bsC2) 3 "Y" = PVal.nan ∧
    total_change_spec (combined [] bsC2) 3 "Y" = PVal.num 4 ∧
    PVal.nan ≠ PVal.num 4 := by
  refine ⟨by decide, ?_, by decide⟩
  have h0 : (present_dates (combined [] bsC2) 3 "Y").head? = some 2 := by decide
  have h1 : (present_dates (combined [] bsC2) 3 "Y").getLast? = some 3 := by decide
  have hc0 : cell (combined [] bsC2) "Y" 2 = some 100 := by decide
  have hc1 : cell (combined [] bsC2) "Y" 3 = some 104 := by decide
  simp only [total_change_spec, h0, h1, hc0, hc1, pctCell]
  norm_num

/-! ## C3 -/

/-- C3 (amended): the day-over-day change at the first *present* date of
an instrument's series is the missing-value sentinel `NaN`, not zero:
`pct_change` (line 114) has no prior value to compare the first
observation against, even after forward filling. -/
theorem C3_amended_first_change_is_nan
    (rs : List Rec) (days : Nat) (n : String) (j : Nat) (x : Option ℚ)
    (hb : ∀ k, k < j → (price_row rs days n).get? k = some none)
    (hj : (price_row rs days n).get? j = some x) :
    daily_change rs days n j = PVal.nan := by
  have h := pctPairs_get?_none_prefix (price_row rs days n) j x hb hj
  simp only [daily_change, pct_row, h, Option.getD_some, pctCell_none_left]

/-- C3 witness: instrument `W` of `bsC3` first appears at the second
window column (index 1); its change there is `NaN`. -/
theorem C3_witness :
    daily_change (combined [] bsC3) 7 "W" 1 = PVal.nan :=
  C3_amended_first_change_is_nan (combined [] bsC3) 7 "W" 1 (some 100)
    (by decide) (by decide)

/-- C3 counterexample: the change of instrument `W` at the first date of
its series is `NaN`, which is not the numeric zero the claim asserts. -/
theorem C3_counterexample :
    daily_change (combined [] bsC3) 7 "W" 1 = PVal.nan ∧
    PVal.nan ≠ PVal.num 0 :=
  ⟨by decide, by decide⟩

/-! ## C4 -/

/-- C4 (amended): in a window with at least two calendar dates, an
instrument with fewer than two observations has total change `NaN`
(the missing-value sentinel), not zero; the computation still succeeds
(no exception), as the witnessing run of the pipeline shows. -/
theorem C4_amended_sparse_total_change_nan
    (rs : List Rec) (days : Nat) (n : String)
    (hlen : 2 ≤ (last_days rs days).length)
    (hobs : (present_dates rs days n).length < 2) :
    total_change rs days n = PVal.nan := by
  rcases hL : last_days rs days with _ | ⟨a, t⟩
  · rw [hL] at hlen
    simp at hlen
  · have hcons : a :: t ≠ [] := List.cons_ne_nil a t
    have h1 : (a :: t).getLast? = some ((a :: t).getLast hcons) :=
      List.getLast?_eq_getLast _ hcons
    have hsorted : List.Sorted (· < ·) (a :: t) := by
      rw [← hL]
      exact sorted_lt_last_days rs days
    have hlen' : 2 ≤ (a :: t).length := by
      rw [← hL]
      exact hlen
    have hane : a ≠ (a :: t).getLast hcons :=
      Nat.ne_of_lt (head_lt_getLast hsorted rfl h1 hlen')
    simp only [present_dates, hL] at hobs
    simp only [total_change, hL, List.head?_cons, h1]
    cases hc0 : cell rs n a with
    | none => exact pctCell_none_left _
    | some p0 =>
        cases hc1 : cell rs n ((a :: t).getLast hcons) with
        | none => exact pctCell_none_right _
        | some p1 =>
            exfalso
            have hm0 : a ∈ (a :: t).filter (fun d => (cell rs n d).isSome) :=
              List.mem_filter.2 ⟨List.mem_cons_self a t, by rw [hc0]; rfl⟩
            have hm1 : (a :: t).getLast hcons ∈
                (a :: t).filter (fun d => (cell rs n d).isSome) :=
              List.mem_filter.2 ⟨List.getLast_mem hcons, by rw [hc1]; rfl⟩
            have h2 := two_le_length_of_mem hm0 hm1 hane
            omega

/-- C4 witness: instrument `Y` of `bsC4` has a single observation in the
two-date window, and its total change is `NaN`. -/
theorem C4_witness :
    total_change (combined [] bsC4) 7 "Y" = PVal.nan :=
  C4_amended_sparse_total_change_nan (combined [] bsC4) 7 "Y"
    (by decide) (by decide)

/-- C4 counterexample: instrument `Y` of `bsC4` has one observation; the
claim asserts its total change is zero, but the code produces `NaN`.
The run itself succeeds (the pipeline returns `ok`), so only the
"total change is zero" half of the claim fails. -/
theorem C4_counterexample :
    total_change (combined [] bsC4) 7 "Y" = PVal.nan ∧
    PVal.nan ≠ PVal.num 0 ∧
    pipeline (some []) bsC4 7 =
      PipeOut.ok (combined [] bsC4) (last_days (combined [] bsC4) 7) :=
  ⟨by decide, by decide, by decide⟩

/-! ## C5 -/

/-- C5 (amended): a zero prior close in percent mode never raises, but
the result is the IEEE value `+inf` when the current close is positive
(and similarly for the window total with a zero first close) — `NaN`
would arise only in the `0/0` case.  The claim's "sentinel no-value"
description is refuted by `C5_counterexample`. -/
theorem C5_amended_zero_close_gives_inf (rs : List Rec) (days : Nat) (n : String) :
    (∀ j c, (price_row rs days n).get? j = some (some 0) →
        (price_row rs days n).get? (j + 1) = some (some c) → 0 < c →
        daily_change rs days n (j + 1) = PVal.inf) ∧
    (∀ d0 d1 c, (last_days rs days).head? = some d0 →
        (last_days rs days).getLast? = some d1 →
        cell rs n d0 = some 0 → cell rs n d1 = some c → 0 < c →
        total_change rs days n = PVal.inf) := by
  constructor
  · intro j c h0 h1 hc
    have h := pctPairs_get?_succ none (price_row rs days n) j 0 c h0 h1
    simp only [daily_change, pct_row, h, Option.getD_some, pctCell]
    rw [if_pos trivial, if_neg (ne_of_gt hc), if_pos hc]
  · intro d0 d1 c h0 h1 hc0 hc1 hc
    simp only [total_change, h0, h1, hc0, hc1, pctCell]
    rw [if_pos trivial, if_neg (ne_of_gt hc), if_pos hc]

/-- C5 witness: instrument `Z` of `bsC5` closes at 0 then 5; the
day-over-day change at the second column is `+inf`. -/
theorem C5_witness :
    daily_change (combined [] bsC5) 7 "Z" 1 = PVal.inf :=
  (C5_amended_zero_close_gives_inf (combined [] bsC5) 7 "Z").1 0 5
    (by decide) (by decide) (by decide)

/-- C5 counterexample: with a prior close of 0 and a current close of 5,
both the day-over-day change and the total change are `+inf`, not the
`NaN` "no value" sentinel the claim asserts. -/
theorem C5_counterexample :
    daily_change (combined [] bsC5) 7 "Z" 1 = PVal.inf ∧
    total_change (combined [] bsC5) 7 "Z" = PVal.inf ∧
    PVal.inf ≠ PVal.nan :=
  ⟨by decide, by decide, by decide⟩

/-! ## C6 -/

/-- C6 (confirmed): when the mapping table cannot be loaded
(`load_bse_mapping` raises), the run reports the fatal configuration
error and stops before any download, reconciliation or returns
computation: the result is `configError` for every batch input and
window size, and carries no partial output. -/
theorem C6_missing_mapping_fatal :
    ∀ (bs : List Batch) (days : Nat),
      pipeline none bs days = PipeOut.configError :=
  fun _ _ => rfl

/-! ## C7 -/

/-- C7 (amended): a BSE record whose scrip code has no mapping entry is
emitted with a missing canonical id, always survives the NSE-preference
filter (a missing ISIN is never in the NSE set), and its native display
name is a row of the final table.  However, series are keyed by display
name, so such a record shares its output row with any exchange-A record
of identical name — the "never merged" half of the claim is refuted by
`C7_counterexample`. -/
theorem C7_amended_unmapped_kept (m : List MapRow) (bs : List Batch) :
    ∀ r ∈ bse_all m bs, r.isin = none →
      r ∈ combined m bs ∧ r.name ∈ out_names (combined m bs) := by
  intro r hr hnone
  have hmem : r ∈ combined m bs := by
    refine List.mem_append_right _ (List.mem_filter.2 ⟨hr, ?_⟩)
    rw [keepBse, hnone]
  exact ⟨hmem, mem_dropDup.2 (List.mem_map_of_mem _ hmem)⟩

/-- C7 witness: the unmapped BSE record of `bsC7` (scrip code 7, name
`"AB"`, date 2) is kept in the reconciled set and its name indexes a row
of the output. -/
theorem C7_witness :
    (⟨2, none, "AB", 11, 1, Exch.B⟩ : Rec) ∈ combined [] bsC7 ∧
    "AB" ∈ out_names (combined [] bsC7) :=
  C7_amended_unmapped_kept [] bsC7 _ (by decide) (by decide)

/-- C7 counterexample: the unmapped BSE record named `"AB"` (date 2) and
the NSE record named `"AB"` (date 1, ISIN `"I2"`) both survive into the
reconciled set, share the display-name key, and the pivot succeeds — so
the final table has a single row `"AB"` holding the exchange-A close on
date 1 and the exchange-B close on date 2: the null-id record *is*
merged with an exchange-A record, refuting the "never merged" claim. -/
theorem C7_counterexample :
    (⟨1, some "I2", "AB", 10, 1, Exch.A⟩ : Rec) ∈ combined [] bsC7 ∧
    (⟨2, none, "AB", 11, 1, Exch.B⟩ : Rec) ∈ combined [] bsC7 ∧
    pivotOk (combined [] bsC7) ∧
    cell (combined [] bsC7) "AB" 1 = some 10 ∧
    cell (combined [] bsC7) "AB" 2 = some 11 :=
  ⟨by decide, by decide, by decide, by decide, by decide⟩

/-! ## C8 -/

/-- C8 (confirmed): whenever the pipeline succeeds, the window's date
columns are strictly increasing — so every per-instrument series is
ordered by strictly increasing dates with each date occurring at most
once — and no two reconciled records share a `(NAME, DATE)` key, i.e.
each date of each series is backed by exactly one record attributed to
exactly one exchange. -/
theorem C8_series_dates_strictly_increasing
    (mapT : Option (List MapRow)) (bs : List Batch) (days : Nat)
    (comb : List Rec) (ld : List Nat)
    (h : pipeline mapT bs days = PipeOut.ok comb ld) :
    List.Sorted (· < ·) ld ∧ (comb.map keyOf).Nodup := by
  cases mapT with
  | none => simp [pipeline] at h
  | some m =>
      simp only [pipeline] at h
      by_cases hd : hasAnyDownload bs = true
      · rw [if_pos hd] at h
        by_cases hp : pivotOk (combined m bs)
        · rw [if_pos hp] at h
          by_cases he : (last_days (combined m bs) days).isEmpty = true
          · rw [if_pos he] at h
            simp at h
          · rw [if_neg he] at h
            injection h with h1 h2
            subst h1
            subst h2
            exact ⟨sorted_lt_last_days _ _, hp⟩
        · rw [if_neg hp] at h
          simp at h
      · rw [if_neg hd] at h
        simp at h

/-- C8 witness: a successful concrete run whose window `[1, 2]` is
strictly sorted and whose record keys are pairwise distinct. -/
theorem C8_witness :
    List.Sorted (· < ·) (last_days (combined [] bsC8) 3) ∧
    ((combined [] bsC8).map keyOf).Nodup :=
  C8_series_dates_strictly_increasing (some []) bsC8 3 (combined [] bsC8)
    (last_days (combined [] bsC8) 3) (by decide)

/-! ## C9 -/

/-- C9 (amended): `load_bse_mapping` (lines 36-40) does *not*
deduplicate the mapping table, and the left merge of line 72 duplicates
every matching BSE row once per matching mapping row.  With two or more
mapping rows for one scrip code, the duplicated records share their
`(NAME, DATE)` key, so a run whose data is such a BSE row aborts in the
pivot — a repeated mapping row changes the pipeline's output instead of
being ignored. -/
theorem C9_amended_duplicate_mapping_breaks_pivot
    (d days : Nat) (m : List MapRow) (r : BseRaw)
    (h : 2 ≤ (m.filter (fun mr => mr.scCode == r.scCode)).length) :
    pipeline (some m) [⟨d, none, some [r]⟩] days = PipeOut.pivotError := by
  have hne : (m.filter (fun mr => mr.scCode == r.scCode)).isEmpty = false := by
    cases hE : m.filter (fun mr => mr.scCode == r.scCode) with
    | nil => rw [hE] at h; simp at h
    | cons x xs => rfl
  have hbatch : bse_batch d m [r] =
      (m.filter (fun mr => mr.scCode == r.scCode)).map
        (fun mr => ⟨d, mr.isin, r.scName, r.close, r.volume, Exch.B⟩) := by
    show (dropDup [(r.scCode, r.scName, r.close, r.volume)]).flatMap _ = _
    rw [show dropDup [(r.scCode, r.scName, r.close, r.volume)] =
      [(r.scCode, r.scName, r.close, r.volume)] from rfl]
    simp only [List.flatMap_cons, List.flatMap_nil, List.append_nil, hne,
      Bool.false_eq_true, if_false]
  have hcomb : combined m [⟨d, none, some [r]⟩] = bse_batch d m [r] := by
    have hfil : ∀ a ∈ bse_batch d m [r],
        keepBse [⟨d, none, some [r]⟩] a = true := by
      intro a _
      rw [keepBse]
      cases hi : a.isin with
      | none => rfl
      | some i => rfl
    show nse_all _ ++ bse_filtered m _ = _
    rw [show nse_all [⟨d, none, some [r]⟩] = [] from rfl, List.nil_append]
    show (bse_all m _).filter (keepBse _) = _
    rw [show bse_all m [⟨d, none, some [r]⟩] = bse_batch d m [r] by
      simp [bse_all]]
    exact List.filter_eq_self.2 hfil
  have hnp : ¬ pivotOk (combined m [⟨d, none, some [r]⟩]) := by
    intro hp
    rw [hcomb, hbatch, pivotOk, List.map_map] at hp
    rw [show keyOf ∘ (fun mr : MapRow =>
        (⟨d, mr.isin, r.scName, r.close, r.volume, Exch.B⟩ : Rec)) =
        fun _ => (r.scName, d) from rfl] at hp
    rw [List.map_const', List.nodup_replicate] at hp
    omega
  simp only [pipeline]
  rw [if_pos (show hasAnyDownload [⟨d, none, some [r]⟩] = true from rfl),
    if_neg hnp]

/-- C9 witness: the mapping table `mapC9dup` repeats the row for scrip
code 5, so the run over a single BSE row with that code aborts in the
pivot. -/
theorem C9_witness :
    pipeline (some mapC9dup) [⟨1, none, some [⟨5, "B1", 10, 1⟩]⟩] 7 =
      PipeOut.pivotError :=
  C9_amended_duplicate_mapping_breaks_pivot 1 7 mapC9dup ⟨5, "B1", 10, 1⟩
    (by decide)

/-- C9 counterexample: with the duplicated mapping table the run aborts
in the pivot, while the same run with the deduplicated table succeeds —
the two pipeline outputs differ, refuting the claim that a repeated
mapping row is ignored. -/
theorem C9_counterexample :
    pipeline (some mapC9dup) bsC9 7 = PipeOut.pivotError ∧
    pipeline (some mapC9dup) bsC9 7 ≠ pipeline (some mapC9once) bsC9 7 :=
  ⟨by decide, by decide⟩

/-! ## C10 -/

/-- C10 (confirmed): if two distinct reconciled records share the same
display name and trading date, `DataFrame.pivot` (line 105) is undefined
and the whole run aborts with `pivotError`, producing no output table. -/
theorem C10_duplicate_key_aborts
    (m : List MapRow) (bs : List Batch) (days : Nat) (r1 r2 : Rec)
    (hd : hasAnyDownload bs = true)
    (h1 : r1 ∈ combined m bs) (h2 : r2 ∈ combined m bs)
    (hne : r1 ≠ r2) (hk : keyOf r1 = keyOf r2) :
    pipeline (some m) bs days = PipeOut.pivotError := by
  have hnp : ¬ pivotOk (combined m bs) := by
    intro hp
    exact hne (List.inj_on_of_nodup_map hp h1 h2 hk)
  simp only [pipeline]
  rw [if_pos hd, if_neg hnp]

/-- C10 witness: `bsC10` holds two NSE rows with symbol `"D"` on date 1
but different ISINs and prices; the run aborts in the pivot. -/
theorem C10_witness :
    pipeline (some []) bsC10 7 = PipeOut.pivotError :=
  C10_duplicate_key_aborts [] bsC10 7
    ⟨1, some "I1", "D", 10, 1, Exch.A⟩ ⟨1, some "I2", "D", 11, 1, Exch.A⟩
    (by decide) (by decide) (by decide) (by decide) (by decide)
